import Mathlib

/-!
Shallow embedding of the watchtower task-coordination layer of the smartnode
repository: snapshot-block resolution, interval checkpoint detection, the
rewards-tree submission task, the RPL price submission task, the L2 price
relay rotation, and the single-flight background-run guard.

Conventions of the embedding:
* Go `uint64` / `int64` arithmetic is modelled with `Nat` / `Int`; Go's `/` on
  signed integers truncates toward zero, which is `Int.tdiv`.  A Go division
  by zero panics, which is modelled by an explicit `panicked` result reached
  before the division is taken.
* `time.Time` / `time.Duration` values are whole seconds here (every time in
  the modelled code is built from unix-second chain values), carried as `Int`.
  The source computes `math.Ceil(totalTimespan.Seconds()/secondsPerSlot)` in
  float64; on the integral-second domain (values far below 2^52) that float
  ceil coincides with exact rational ceiling, embedded as `ceilDivNat`.
* Fallible external calls (beacon RPC, file IO, uploads, transactions) are
  modelled by environment fields recording their outcome; a task's on-chain
  submission attempts are counted in the result.
-/

namespace Watchtower

/-! ### Beacon chain model -/

/-- Beacon chain constants used by the tasks (state.BeaconConfig). -/
structure BeaconCfg where
  genesisTime : Int
  secondsPerSlot : Nat
  slotsPerEpoch : Nat
deriving Repr

/-- Exact ceiling division on naturals: models `math.Ceil(a / b)` for the
integral arguments the source feeds it. -/
def ceilDivNat (a b : Nat) : Nat := (a + b - 1) / b

/-! ### Snapshot block resolution (getSnapshotConsensusBlock) -/

/-- Error cases of `getSnapshotConsensusBlock`.  In the Go source both are
returned through the function's `error` result value: `notFinalized` is the
`fmt.Errorf("... waiting until epoch %d is finalized ...")` value produced
when the required epoch is not finalized yet. -/
inductive SnapErr where
  | notFinalized (required current : Nat)
  | emptyChain
deriving DecidableEq, Repr

/-- Go return triple `(uint64, uint64, error)` of `getSnapshotConsensusBlock`:
the resolved consensus slot, its execution block number, and the error value
(`none` models a nil error). -/
structure SnapshotReturn where
  slot : Nat
  elBlock : Nat
  err : Option SnapErr
deriving DecidableEq, Repr

/-- Target slot before epoch alignment:
`targetSlot = uint64(math.Ceil(totalTimespan.Seconds() / secondsPerSlot))`. -/
def rawTargetSlot (cfg : BeaconCfg) (endTime : Int) : Nat :=
  ceilDivNat (endTime - cfg.genesisTime).toNat cfg.secondsPerSlot

/-- `targetSlotEpoch := targetSlot / SlotsPerEpoch`. -/
def targetEpochOf (cfg : BeaconCfg) (endTime : Int) : Nat :=
  rawTargetSlot cfg endTime / cfg.slotsPerEpoch

/-- Epoch-end alignment:
`targetSlot = targetSlotEpoch*SlotsPerEpoch + (SlotsPerEpoch - 1)`. -/
def lastSlotOfTargetEpoch (cfg : BeaconCfg) (endTime : Int) : Nat :=
  targetEpochOf cfg endTime * cfg.slotsPerEpoch + (cfg.slotsPerEpoch - 1)

/-- Backward walk of the resolver: starting at the given slot, decrement one
slot at a time until a slot with a proposed block is found, and return that
slot together with the block's execution block number.  `blocks s = some el`
models `GetBeaconBlock(s)` reporting a proposed block whose
`ExecutionBlockNumber` is `el`; `none` models a missed slot.  The source loop
has no lower bound (at slot 0 the `uint64` decrement would wrap); the claims
only exercise the walk below a slot that has some proposed ancestor. -/
def findFirstProposed (blocks : Nat → Option Nat) : Nat → Option (Nat × Nat)
  | 0 =>
    match blocks 0 with
    | some el => some (0, el)
    | none => none
  | n + 1 =>
    match blocks (n + 1) with
    | some el => some (n + 1, el)
    | none => findFirstProposed blocks n

/-- Embedding of `getSnapshotConsensusBlock` (part_005, lines 500-538): derive
the epoch-aligned target slot from the end time, require one extra finalized
epoch, then walk backward to the first proposed block. -/
def getSnapshotConsensusBlock (cfg : BeaconCfg) (finalizedEpoch : Nat)
    (blocks : Nat → Option Nat) (endTime : Int) : SnapshotReturn :=
  let targetSlotEpoch := targetEpochOf cfg endTime
  let targetSlot := lastSlotOfTargetEpoch cfg endTime
  let requiredEpoch := targetSlotEpoch + 1
  if finalizedEpoch < requiredEpoch then
    ⟨0, 0, some (.notFinalized requiredEpoch finalizedEpoch)⟩
  else
    match findFirstProposed blocks targetSlot with
    | some (s, el) => ⟨s, el, none⟩
    | none => ⟨0, 0, some .emptyChain⟩

/-! ### Interval checkpoint detection -/

/-- `intervalsPassed := timeSinceStart / intervalTime` (part_005, line 99):
Go division of two `time.Duration` values, truncating toward zero.  The
division itself; the zero-divisor panic is modelled at the call site in
`rewardsRun`. -/
def elapsedIntervals (now intervalStart intervalDuration : Int) : Int :=
  (now - intervalStart).tdiv intervalDuration

/-! ### Rewards artifact cache (isExistingFileValid) -/

/-- Header fields of a rewards file relevant to cache validation. -/
structure RewardsFileHeader where
  index : Nat
  intervalsPassed : Nat
deriving DecidableEq, Repr

/-- Observable state of the rewards tree file at its expected path:
missing, present but unreadable, present but not deserializable, or parsed
with a header. -/
inductive FileState where
  | absent
  | unreadable
  | corrupt
  | parsed (header : RewardsFileHeader)
deriving DecidableEq, Repr

/-- Embedding of `isExistingFileValid` (part_005, lines 217-245): absent,
unreadable, and undeserializable files are invalid (logged and regenerated,
never an error); a parsed file is valid exactly when its recorded
`IntervalsPassed` equals the current count. -/
def isExistingFileValid (file : FileState) (intervalsPassed : Nat) : Bool :=
  match file with
  | .absent => false
  | .unreadable => false
  | .corrupt => false
  | .parsed header => header.intervalsPassed == intervalsPassed

/-! ### Rewards submission task (SubmitRewardsTree_Stateless.Run) -/

/-- Error values that `Run` can return to its caller in the modelled paths. -/
inductive RunErr where
  | snapshot (e : SnapErr)
  | upload
  | submit
deriving DecidableEq, Repr

/-- Result of one `Run` invocation together with its background generation
work: either the Go runtime panicked (division by a zero duration), or the
call returned with `err` (`none` models a nil return) having made
`submissions` on-chain rewards-snapshot submission attempts (attempts made by
the spawned generation goroutine included; its failures go to the error log,
not to `Run`'s return value). -/
inductive RunResult where
  | panicked
  | returned (err : Option RunErr) (submissions : Nat)
deriving DecidableEq, Repr

/-- Environment of one rewards-task invocation: chain state read by the task
and the outcomes of its external calls. -/
structure RewardsEnv where
  nodeTrusted : Bool
  generateMode : Bool
  intervalStart : Int
  intervalDuration : Int
  beaconCfg : BeaconCfg
  beaconSlotNumber : Nat
  finalizedEpoch : Nat
  blocks : Nat → Option Nat
  rewardIndex : Nat
  isRunning : Bool
  fileState : FileState
  treeSubmittedForNode : Bool
  generationOk : Bool
  uploadOk : Bool
  submitOk : Bool

/-- `stateTime := genesisTime.Add(secondsPerSlot * BeaconSlotNumber)`
(part_005, lines 95-97). -/
def stateTimeOf (e : RewardsEnv) : Int :=
  e.beaconCfg.genesisTime + (e.beaconCfg.secondsPerSlot * e.beaconSlotNumber : Nat)

/-- Elapsed interval count computed by this invocation. -/
def elapsedOf (e : RewardsEnv) : Int :=
  elapsedIntervals (stateTimeOf e) e.intervalStart e.intervalDuration

/-- `endTime := startTime.Add(intervalTime * intervalsPassed)` (line 100). -/
def endTimeOf (e : RewardsEnv) : Int :=
  e.intervalStart + e.intervalDuration * elapsedOf e

/-- Go conversion `uint64(intervalsPassed)` of an `int64` duration count. -/
def goUInt64 (i : Int) : Nat := (i.emod ((2 : Int) ^ 64)).toNat

/-- Embedding of `SubmitRewardsTree_Stateless.Run` (part_005, lines 72-201)
together with the background goroutine it spawns (`generateTree` /
`generateTreeImpl`, lines 248-367), sequentialized:
1. untrusted nodes not in generate mode return immediately;
2. the interval division (panics on a zero duration, exactly where the Go
   division is taken), returning nil when no interval has passed;
3. snapshot resolution, whose error value is returned to the caller;
4. the lock-guarded `isRunning` check, returning nil when set;
5. reuse of a valid existing file: untrusted nodes stop; a node that has
   already submitted for this interval stops; otherwise re-upload and
   re-submit;
6. otherwise background generation: uploads and the submission attempt happen
   only for trusted nodes, and background failures are logged, leaving the
   `Run` return value nil. -/
def rewardsRun (e : RewardsEnv) : RunResult :=
  if !e.nodeTrusted && !e.generateMode then .returned none 0
  else if e.intervalDuration = 0 then .panicked
  else
    let intervalsPassed := elapsedOf e
    if intervalsPassed = 0 then .returned none 0
    else
      let snap := getSnapshotConsensusBlock e.beaconCfg e.finalizedEpoch e.blocks (endTimeOf e)
      match snap.err with
      | some se => .returned (some (.snapshot se)) 0
      | none =>
        if e.isRunning then .returned none 0
        else if isExistingFileValid e.fileState (goUInt64 intervalsPassed) then
          if !e.nodeTrusted then .returned none 0
          else if e.treeSubmittedForNode then .returned none 0
          else if !e.uploadOk then .returned (some .upload) 0
          else if !e.submitOk then .returned (some .submit) 1
          else .returned none 1
        else
          if !e.generationOk then .returned none 0
          else if !e.nodeTrusted then .returned none 0
          else if !e.uploadOk then .returned none 0
          else .returned none 1

/-! ### RPL price submission task (SubmitRplPrice.Run) -/

/-- Background errors of the price report goroutine (routed to the error log
by `handleError`; `Run` itself has already returned nil). -/
inductive PriceErr where
  | twap
  | submit
deriving DecidableEq, Repr

/-- Result of one price-task invocation: the background error (if any), the
number of on-chain price submission attempts, and whether the
"previously submitted out-of-date prices ... trying again" message was
logged. -/
structure PriceResult where
  bgErr : Option PriceErr
  submissions : Nat
  loggedRetry : Bool
deriving DecidableEq, Repr

/-- Environment of one price-task invocation.  `specificSubmitted b p` is the
result of `hasSubmittedSpecificBlockPrices` for block `b` and price `p`
(storage flag keyed by tag, node address, block, and price value);
`anySubmitted b` is the result of `hasSubmittedBlockPrices` for block `b`
(keyed without the price value). -/
structure PriceEnv where
  submitPricesEnabled : Bool
  latestReportableBlock : Nat
  pricesBlock : Nat
  blockTime : Int
  beaconCfg : BeaconCfg
  finalizedEpoch : Nat
  isRunning : Bool
  twapOk : Bool
  rplPrice : Nat
  specificSubmitted : Nat → Nat → Bool
  anySubmitted : Nat → Bool
  submitOk : Bool

/-- `slotNumber := uint64(timeSinceGenesis.Seconds()) / SecondsPerSlot;`
`targetEpoch := slotNumber / SlotsPerEpoch` (submit-rpl-price.go, 105-112). -/
def priceTargetEpoch (p : PriceEnv) : Nat :=
  (p.blockTime - p.beaconCfg.genesisTime).toNat / p.beaconCfg.secondsPerSlot
    / p.beaconCfg.slotsPerEpoch

/-- Embedding of `SubmitRplPrice.Run` (submit-rpl-price.go, lines 73-201)
together with the price-report goroutine it spawns, sequentialized.  The
finality wait (`targetEpoch > finalizedEpoch`) is a log plus a nil return in
this task.  In the goroutine: the value-specific duplicate probe
short-circuits with no submission; a block-generic duplicate only logs the
retry message and submission proceeds with the new value. -/
def priceRun (p : PriceEnv) : PriceResult :=
  if !p.submitPricesEnabled then ⟨none, 0, false⟩
  else if p.latestReportableBlock ≤ p.pricesBlock then ⟨none, 0, false⟩
  else if p.finalizedEpoch < priceTargetEpoch p then ⟨none, 0, false⟩
  else if p.isRunning then ⟨none, 0, false⟩
  else if !p.twapOk then ⟨some .twap, 0, false⟩
  else if p.specificSubmitted p.latestReportableBlock p.rplPrice then ⟨none, 0, false⟩
  else
    let retry := p.anySubmitted p.latestReportableBlock
    if p.submitOk then ⟨none, 1, retry⟩ else ⟨some .submit, 1, retry⟩

/-! ### L2 price relay (updateL2Prices) -/

/-- `BlocksPerTurn uint64 = 75` (submit-rpl-price.go, line 37). -/
def BlocksPerTurn : Nat := 75

/-- Leader-rotation formula
`indexToSubmit := (blockNumber / BlocksPerTurn) % count` (line 456). -/
def selectedIndex (blockNumber blocksPerTurn memberCount : Nat) : Nat :=
  (blockNumber / blocksPerTurn) % memberCount

/-- First index of `myAddr` in the member list, if present. -/
def firstIndexOf (myAddr : Nat) : List Nat → Option Nat
  | [] => none
  | a :: rest =>
    if a = myAddr then some 0 else (firstIndexOf myAddr rest).map (· + 1)

/-- Member-index loop of `updateL2Prices` (lines 444-452): `index` starts at
0 and is set to the first position whose address matches, so an address not
in the list yields index 0. -/
def findMemberIndex (members : List Nat) (myAddr : Nat) : Nat :=
  (firstIndexOf myAddr members).getD 0

/-- The five independent relay targets of `updateL2Prices`. -/
inductive L2Target where
  | optimism
  | polygon
  | arbitrum
  | zkSyncEra
  | base
deriving DecidableEq, Repr

/-- All targets, in the order the source checks them. -/
def allL2Targets : List L2Target :=
  [.optimism, .polygon, .arbitrum, .zkSyncEra, .base]

/-- Environment of one `updateL2Prices` invocation.  `configured t` models a
non-empty messenger contract address for `t`; `rateStale t` the on-chain
staleness flag; `submitFails t` whether the target-specific submission
(`updateOptimism` etc.) returns an error. -/
structure L2Env where
  configured : L2Target → Bool
  rateStale : L2Target → Bool
  members : List Nat
  myAddress : Nat
  elBlockNumber : Nat
  submitFails : L2Target → Bool

/-- A target's staleness as the code observes it: the per-target `bool`
variables default to false and are only filled by the batched query when the
messenger is configured. -/
def effectiveStale (e : L2Env) (t : L2Target) : Bool :=
  e.configured t && e.rateStale t

/-- The sequence of per-target submission attempts made in the leader branch
(lines 458-473): one independent attempt per stale configured target, in
source order, unconditionally of the other targets' outcomes. -/
def relayAttempts (e : L2Env) : List L2Target :=
  (if effectiveStale e .optimism then [L2Target.optimism] else []) ++
  (if effectiveStale e .polygon then [L2Target.polygon] else []) ++
  (if effectiveStale e .arbitrum then [L2Target.arbitrum] else []) ++
  (if effectiveStale e .zkSyncEra then [L2Target.zkSyncEra] else []) ++
  (if effectiveStale e .base then [L2Target.base] else [])

/-- Outcome of `updateL2Prices`: which targets were attempted, which of those
attempts failed, and whether the joined error (`errors.Join(errs...)`, which
drops nil entries) is non-nil. -/
structure L2Result where
  attempted : List L2Target
  failedTargets : List L2Target
  errJoined : Bool
deriving DecidableEq, Repr

/-- Embedding of `updateL2Prices` (submit-rpl-price.go, lines 348-477):
return nil when no messenger is configured or no configured rate is stale;
then compute this node's member index and the rotation leader
(`% count` panics in Go when the member list is empty, modelled as `none`);
relay only when leader, attempting every stale target and joining the
errors. -/
def updateL2Prices (e : L2Env) : Option L2Result :=
  if allL2Targets.all (fun t => !e.configured t) then some ⟨[], [], false⟩
  else if allL2Targets.all (fun t => !effectiveStale e t) then some ⟨[], [], false⟩
  else if e.members.length = 0 then none
  else
    let index := findMemberIndex e.members e.myAddress
    let indexToSubmit := selectedIndex e.elBlockNumber BlocksPerTurn e.members.length
    if index = indexToSubmit then
      let att := relayAttempts e
      let failedTargets := att.filter (fun t => e.submitFails t)
      some ⟨att, failedTargets, !failedTargets.isEmpty⟩
    else some ⟨[], [], false⟩

end Watchtower

namespace SingleFlight

/-!
Interleaving model of the lock-guarded single-flight pattern shared by
`SubmitRewardsTree_Stateless.Run`/`generateTree` (part_005, lines 122-129 and
248-271) and `SubmitRplPrice.Run` (submit-rpl-price.go, lines 123-135): the
entry point checks `isRunning` under the mutex and returns when it is set;
otherwise it spawns a goroutine which sets the flag under the mutex, runs the
long body, and clears the flag.  Each mutex-protected section is one atomic
action; two invocations of the same task's entry point run concurrently and a
schedule lists which call's next atomic action runs.
-/

/-- Control point of one entry-point call and the goroutine it may spawn. -/
inductive TPhase where
  | atCheck
  | launched
  | working
  | clearing
  | noopDone
  | finished
deriving DecidableEq, Repr

/-- Shared flag plus the control point and performed background-execution
count of each of the two calls. -/
structure Sys where
  flag : Bool
  p1 : TPhase
  p2 : TPhase
  e1 : Nat
  e2 : Nat
deriving DecidableEq, Repr

/-- Both calls are about to run the lock-guarded check; no run is active. -/
def init : Sys := ⟨false, .atCheck, .atCheck, 0, 0⟩

/-- One atomic action of a call: the lock-guarded flag check (observing the
flag set means returning immediately: `noopDone`); the spawned goroutine's
lock-guarded `isRunning = true`; the generation body (one background
execution); the lock-guarded `isRunning = false`. -/
def stepThread (flag : Bool) (p : TPhase) (e : Nat) : Bool × TPhase × Nat :=
  match p with
  | .atCheck => if flag then (flag, .noopDone, e) else (flag, .launched, e)
  | .launched => (true, .working, e)
  | .working => (flag, .clearing, e + 1)
  | .clearing => (false, .finished, e)
  | .noopDone => (flag, .noopDone, e)
  | .finished => (flag, .finished, e)

/-- Run the scheduled call's next atomic action (`false` = call 1,
`true` = call 2). -/
def step (s : Sys) (tid : Bool) : Sys :=
  if tid then
    let r := stepThread s.flag s.p2 s.e2
    { s with flag := r.1, p2 := r.2.1, e2 := r.2.2 }
  else
    let r := stepThread s.flag s.p1 s.e1
    { s with flag := r.1, p1 := r.2.1, e1 := r.2.2 }

/-- Execute a schedule from the initial state. -/
def run (sched : List Bool) : Sys := sched.foldl step init

/-- Background executions a call has performed, as determined by its control
point: exactly one once its body has run. -/
def phaseExecs : TPhase → Nat
  | .clearing => 1
  | .finished => 1
  | _ => 0

/-- Invariant tying each call's execution count to its control point. -/
def ExecInv (s : Sys) : Prop :=
  s.e1 = phaseExecs s.p1 ∧ s.e2 = phaseExecs s.p2

end SingleFlight

namespace Watchtower

/-! ### Concrete environments used by witnesses and counterexamples -/

/-- A trusted-node rewards invocation one whole interval after the interval
start, with a finalized required epoch, no valid local file, a remote
ledger that already records this node's submission, and succeeding external
calls. -/
def rewardsEnvRegen : RewardsEnv where
  nodeTrusted := true
  generateMode := false
  intervalStart := 0
  intervalDuration := 86400
  beaconCfg := ⟨0, 12, 32⟩
  beaconSlotNumber := 7200
  finalizedEpoch := 300
  blocks := fun s => some (s + 5)
  rewardIndex := 1
  isRunning := false
  fileState := .absent
  treeSubmittedForNode := true
  generationOk := true
  uploadOk := true
  submitOk := true

/-- Same invocation, but with a valid cached file for the one elapsed
interval. -/
def rewardsEnvDup : RewardsEnv :=
  { rewardsEnvRegen with fileState := .parsed ⟨1, 1⟩ }

/-- Same invocation, but the required epoch (226) is not finalized yet
(currently 225). -/
def rewardsEnvWaiting : RewardsEnv :=
  { rewardsEnvRegen with finalizedEpoch := 225 }

/-- Same invocation, but with a zero interval duration read from chain
state. -/
def rewardsEnvZeroDur : RewardsEnv :=
  { rewardsEnvRegen with intervalDuration := 0 }

/-- An invocation 45 seconds into a 86400-second interval: nothing has
elapsed. -/
def rewardsEnvNoop : RewardsEnv :=
  { rewardsEnvRegen with
      intervalStart := 1713420000
      intervalDuration := 86400
      beaconCfg := ⟨0, 1, 32⟩
      beaconSlotNumber := 1713420045 }

/-- A price invocation where some price was recorded for the block but not
the currently computed value: value-specific flag false, block-generic flag
true. -/
def priceEnvRetry : PriceEnv where
  submitPricesEnabled := true
  latestReportableBlock := 100
  pricesBlock := 50
  blockTime := 1200
  beaconCfg := ⟨0, 12, 32⟩
  finalizedEpoch := 10
  isRunning := false
  twapOk := true
  rplPrice := 77
  specificSubmitted := fun _ _ => false
  anySubmitted := fun _ => true
  submitOk := true

/-- A price invocation where the exact (block, price) pair is already
recorded. -/
def priceEnvDup : PriceEnv :=
  { priceEnvRetry with specificSubmitted := fun _ _ => true }

/-- Three configured stale relay targets, this node the rotation leader
(member index 0 at block 0), the second target's submission failing. -/
def l2EnvLeaderPartial : L2Env where
  configured := fun t =>
    match t with
    | .optimism => true
    | .polygon => true
    | .arbitrum => true
    | _ => false
  rateStale := fun _ => true
  members := [10, 20, 30, 40]
  myAddress := 10
  elBlockNumber := 0
  submitFails := fun t =>
    match t with
    | .polygon => true
    | _ => false

/-- The same staleness picture seen by the member at index 1, who is not the
selected leader for block 0. -/
def l2EnvNotLeader : L2Env :=
  { l2EnvLeaderPartial with myAddress := 20, submitFails := fun _ => false }

end Watchtower


namespace Watchtower

/-! ### Shared lemmas -/

/-- The backward walk returns the greatest slot at or below its starting slot
that has a proposed block, together with that block's execution block number,
whenever such a slot exists. -/
theorem findFirstProposed_spec (blocks : Nat → Option Nat) (n : Nat)
    (hex : ∃ j, j ≤ n ∧ (blocks j).isSome) :
    ∃ s el, findFirstProposed blocks n = some (s, el) ∧ s ≤ n ∧
      blocks s = some el ∧ ∀ s', s < s' → s' ≤ n → blocks s' = none := by
  induction n with
  | zero =>
    obtain ⟨j, hj, hsome⟩ := hex
    have hj0 : j = 0 := Nat.le_zero.mp hj
    subst hj0
    obtain ⟨el, hel⟩ := Option.isSome_iff_exists.mp hsome
    exact ⟨0, el, by simp [findFirstProposed, hel], Nat.le_refl 0, hel,
      fun s' h1 h2 => absurd h2 (by omega)⟩
  | succ n ih =>
    cases hb : blocks (n + 1) with
    | some el =>
      exact ⟨n + 1, el, by simp [findFirstProposed, hb], Nat.le_refl _, hb,
        fun s' h1 h2 => absurd h2 (by omega)⟩
    | none =>
      obtain ⟨j, hj, hsome⟩ := hex
      have hjn : j ≤ n := by
        rcases Nat.lt_or_ge j (n + 1) with h | h
        · omega
        · exfalso
          have hj1 : j = n + 1 := by omega
          rw [hj1, hb] at hsome
          simp at hsome
      obtain ⟨s, el, h1, h2, h3, h4⟩ := ih ⟨j, hjn, hsome⟩
      refine ⟨s, el, ?_, by omega, h3, ?_⟩
      · simpa [findFirstProposed, hb] using h1
      · intro s' hlt hle
        rcases Nat.lt_or_ge s' (n + 1) with h' | h'
        · exact h4 s' hlt (by omega)
        · have hs1 : s' = n + 1 := by omega
          rw [hs1]
          exact hb

/-- When the required epoch is not finalized, the resolver returns the zero
pair and the waiting error value. -/
theorem getSnapshot_waiting (cfg : BeaconCfg) (finalizedEpoch : Nat)
    (blocks : Nat → Option Nat) (endTime : Int)
    (h : finalizedEpoch < targetEpochOf cfg endTime + 1) :
    getSnapshotConsensusBlock cfg finalizedEpoch blocks endTime =
      ⟨0, 0, some (.notFinalized (targetEpochOf cfg endTime + 1) finalizedEpoch)⟩ := by
  simp only [getSnapshotConsensusBlock]
  rw [if_pos h]

/-! ### C2 -/

/-- C2: for an end time at or after beacon genesis, with the required epoch
finalized (the gating settled by C1) and at least one proposed block at or
below the epoch-aligned target, the resolver returns the greatest slot
`s ≤ L` that has a proposed block together with that block's execution block
number, where `L = (ceil((endTime-genesis)/secondsPerSlot) / slotsPerEpoch) *
slotsPerEpoch + (slotsPerEpoch - 1)` is the last slot of the target epoch
(`lastSlotOfTargetEpoch`); the backward walk decrements one slot at a time
and stops at the first proposed block. -/
theorem C2_snapshot_walk (cfg : BeaconCfg) (finalizedEpoch : Nat)
    (blocks : Nat → Option Nat) (endTime : Int)
    (_hgen : cfg.genesisTime ≤ endTime)
    (hfin : targetEpochOf cfg endTime + 1 ≤ finalizedEpoch)
    (j : Nat) (hj : j ≤ lastSlotOfTargetEpoch cfg endTime)
    (hsome : (blocks j).isSome) :
    ∃ s el,
      getSnapshotConsensusBlock cfg finalizedEpoch blocks endTime = ⟨s, el, none⟩ ∧
      s ≤ lastSlotOfTargetEpoch cfg endTime ∧ blocks s = some el ∧
      ∀ s', s < s' → s' ≤ lastSlotOfTargetEpoch cfg endTime → blocks s' = none := by
  obtain ⟨s, el, h1, h2, h3, h4⟩ := findFirstProposed_spec blocks _ ⟨j, hj, hsome⟩
  refine ⟨s, el, ?_, h2, h3, h4⟩
  simp only [getSnapshotConsensusBlock]
  rw [if_neg (by omega), h1]

/-- C2 witness: with genesis 0, 12-second slots, 32-slot epochs, end time
300 and finalized epoch 1, the only proposed slot at or below the target 31
is 20, and the resolver returns it with its execution block 777. -/
theorem C2_snapshot_walk_witness :
    ∃ s el,
      getSnapshotConsensusBlock ⟨0, 12, 32⟩ 1 (fun s => if s = 20 then some 777 else none) 300 =
        ⟨s, el, none⟩ ∧
      s ≤ lastSlotOfTargetEpoch ⟨0, 12, 32⟩ 300 ∧
      (fun s => if s = 20 then some 777 else none) s = some el ∧
      ∀ s', s < s' → s' ≤ lastSlotOfTargetEpoch ⟨0, 12, 32⟩ 300 →
        (fun s => if s = 20 then some 777 else none) s' = none :=
  C2_snapshot_walk ⟨0, 12, 32⟩ 1 (fun s => if s = 20 then some 777 else none) 300
    (by decide) (by decide) 20 (by decide) (by decide)

/-! ### C7 -/

/-- C7: the artifact-cache validity check returns true exactly when a file is
present at the path, deserializes, and stores the current elapsed-interval
count; absent and unparsable files yield false (a Bool, so regeneration is
triggered without failing the task); a fresh artifact recording N intervals
is valid against N and invalid against N + 1. -/
theorem C7_cache_validity :
    (∀ (file : FileState) (n : Nat),
      isExistingFileValid file n = true ↔
        ∃ h, file = .parsed h ∧ h.intervalsPassed = n) ∧
    (∀ h : RewardsFileHeader,
      isExistingFileValid (.parsed h) h.intervalsPassed = true ∧
      isExistingFileValid (.parsed h) (h.intervalsPassed + 1) = false) := by
  constructor
  · intro file n
    cases file with
    | absent => simp [isExistingFileValid]
    | unreadable => simp [isExistingFileValid]
    | corrupt => simp [isExistingFileValid]
    | parsed h =>
      simp only [isExistingFileValid, beq_iff_eq]
      constructor
      · intro he
        exact ⟨h, rfl, he⟩
      · rintro ⟨h', heq, hn⟩
        injection heq with hh
        subst hh
        exact hn
  · intro h
    constructor <;> simp [isExistingFileValid]

/-- C7 witness: a header recording 7 intervals validates against 7 and not
against 8; an absent file is invalid. -/
theorem C7_cache_validity_witness :
    isExistingFileValid (.parsed ⟨3, 7⟩) 7 = true ∧
    isExistingFileValid (.parsed ⟨3, 7⟩) 8 = false ∧
    isExistingFileValid .absent 7 = false :=
  ⟨(C7_cache_validity.2 ⟨3, 7⟩).1, (C7_cache_validity.2 ⟨3, 7⟩).2, by decide⟩

end Watchtower

namespace Watchtower

/-! ### C1 -/

/-- C1 counterexample: with genesis 0, 12-second slots, 32-slot epochs, end
time 300 and finalized epoch 0, the required epoch 1 is not finalized and the
resolver yields the waiting condition through a non-nil error return — the
claim's "not an error" does not hold on the code, which returns the waiting
condition as the function's error value. -/
theorem C1_counterexample :
    getSnapshotConsensusBlock ⟨0, 12, 32⟩ 0 (fun s => some (s + 1000)) 300 =
      ⟨0, 0, some (.notFinalized 1 0)⟩ ∧
    ((getSnapshotConsensusBlock ⟨0, 12, 32⟩ 0 (fun s => some (s + 1000)) 300).err).isSome
      = true := by
  constructor <;> decide

/-- C1 (amended): a resolved (slot, execution block) pair — a return with nil
error — occurs only when `currentFinalizedEpoch ≥ targetEpoch + 1`; whenever
`currentFinalizedEpoch < targetEpoch + 1` the resolver returns no resolved
block and the non-nil "waiting until epoch finalized" error, and the rewards
task returns that error to its caller, performing no submission; the next
scheduler tick retries. -/
theorem C1_finality_gate :
    (∀ (cfg : BeaconCfg) (finalizedEpoch : Nat) (blocks : Nat → Option Nat) (endTime : Int),
      ((getSnapshotConsensusBlock cfg finalizedEpoch blocks endTime).err = none →
        targetEpochOf cfg endTime + 1 ≤ finalizedEpoch) ∧
      (finalizedEpoch < targetEpochOf cfg endTime + 1 →
        getSnapshotConsensusBlock cfg finalizedEpoch blocks endTime =
          ⟨0, 0, some (.notFinalized (targetEpochOf cfg endTime + 1) finalizedEpoch)⟩)) ∧
    (∀ e : RewardsEnv, e.nodeTrusted = true → e.intervalDuration ≠ 0 → elapsedOf e ≠ 0 →
      e.finalizedEpoch < targetEpochOf e.beaconCfg (endTimeOf e) + 1 →
      rewardsRun e =
        .returned (some (.snapshot (.notFinalized
          (targetEpochOf e.beaconCfg (endTimeOf e) + 1) e.finalizedEpoch))) 0) := by
  constructor
  · intro cfg finalizedEpoch blocks endTime
    constructor
    · intro herr
      by_contra hcon
      push_neg at hcon
      rw [getSnapshot_waiting cfg finalizedEpoch blocks endTime hcon] at herr
      simp at herr
    · intro h
      exact getSnapshot_waiting cfg finalizedEpoch blocks endTime h
  · intro e htrust hdur helapsed hfin
    have hsnap := getSnapshot_waiting e.beaconCfg e.finalizedEpoch e.blocks (endTimeOf e) hfin
    simp [rewardsRun, htrust, hdur, helapsed, hsnap]

/-- C1 witness: in the concrete waiting environment (required epoch 226,
finalized 225) the rewards task returns the waiting error and makes no
submission attempt. -/
theorem C1_finality_gate_witness :
    rewardsRun rewardsEnvWaiting =
      .returned (some (.snapshot (.notFinalized 226 225))) 0 := by
  have h := C1_finality_gate.2 rewardsEnvWaiting rfl (by decide) (by decide) (by decide)
  exact h

/-! ### C5 -/

/-- C5 counterexample: at now = 1713333599, start = 1713420000,
duration = 86400 (now earlier than start by a bit over one duration), the
code's truncating division yields -1, while the claim's floor is -2 and its
"equals 0 whenever now < start + duration" clause demands 0 — the claim
fails on the code for inputs with now < start. -/
theorem C5_counterexample :
    elapsedIntervals 1713333599 1713420000 86400 = -1 ∧
    Int.fdiv (1713333599 - 1713420000) 86400 = -2 ∧
    (1713333599 : Int) < 1713420000 + 86400 ∧
    elapsedIntervals 1713333599 1713420000 86400 ≠
      Int.fdiv (1713333599 - 1713420000) 86400 ∧
    elapsedIntervals 1713333599 1713420000 86400 ≠ 0 := by
  refine ⟨by decide, by decide, by decide, by decide, by decide⟩

/-- C5 (amended): for all now, start, duration with duration > 0 and
now ≥ start, the elapsed-interval count equals
floor((now - start) / duration); it is monotonic non-decreasing in now; it
equals 0 exactly when now < start + duration; and when the count is 0 the
rewards task returns immediately with nil error and no submission. -/
theorem C5_elapsed_intervals (now start dur : Int) (hdur : 0 < dur) (hns : start ≤ now) :
    elapsedIntervals now start dur = (now - start).fdiv dur ∧
    (∀ now', now ≤ now' →
      elapsedIntervals now start dur ≤ elapsedIntervals now' start dur) ∧
    (elapsedIntervals now start dur = 0 ↔ now < start + dur) ∧
    (∀ e : RewardsEnv, e.intervalStart = start → e.intervalDuration = dur →
      stateTimeOf e = now → elapsedOf e = 0 → rewardsRun e = .returned none 0) := by
  have hd0 : (0 : Int) ≤ dur := le_of_lt hdur
  have hnum : (0 : Int) ≤ now - start := by omega
  refine ⟨?_, ?_, ?_, ?_⟩
  · rw [elapsedIntervals, Int.tdiv_eq_ediv hnum hd0, Int.fdiv_eq_ediv _ hd0]
  · intro now' hle
    rw [elapsedIntervals, elapsedIntervals, Int.tdiv_eq_ediv hnum hd0,
      Int.tdiv_eq_ediv (by omega) hd0]
    exact Int.ediv_le_ediv hdur (by omega)
  · rw [elapsedIntervals, Int.tdiv_eq_ediv hnum hd0]
    constructor
    · intro h
      by_contra hcon
      push_neg at hcon
      have hge := Int.ediv_le_ediv hdur (show dur ≤ now - start by omega)
      rw [Int.ediv_self (ne_of_gt hdur)] at hge
      omega
    · intro h
      exact Int.ediv_eq_zero_of_lt hnum (by omega)
  · intro e h1 h2 h3 h4
    have hdz : e.intervalDuration ≠ 0 := by rw [h2]; omega
    cases htr : (!e.nodeTrusted && !e.generateMode) with
    | true => simp [rewardsRun, htr]
    | false => simp [rewardsRun, htr, hdz, h4]

/-- C5 witness: the spec's own test points — 45 seconds into a one-day
interval nothing has elapsed and the task is a no-op; at 90000 seconds the
count equals the floor (one interval). -/
theorem C5_elapsed_intervals_witness :
    elapsedIntervals 1713420045 1713420000 86400 = 0 ∧
    elapsedIntervals 1713510000 1713420000 86400 =
      Int.fdiv (1713510000 - 1713420000) 86400 ∧
    rewardsRun rewardsEnvNoop = .returned none 0 := by
  refine ⟨?_, ?_, ?_⟩
  · exact (C5_elapsed_intervals 1713420045 1713420000 86400 (by decide)
      (by decide)).2.2.1.mpr (by decide)
  · exact (C5_elapsed_intervals 1713510000 1713420000 86400 (by decide) (by decide)).1
  · exact (C5_elapsed_intervals 1713420045 1713420000 86400 (by decide)
      (by decide)).2.2.2 rewardsEnvNoop rfl rfl (by decide) (by decide)

/-! ### C6 -/

/-- C6: evaluating the rewards task on a chain state whose interval duration
is zero: the division `timeSinceStart / intervalTime` is reached with no
guard and the invocation panics (Go integer division by zero), instead of
failing with a reported fatal configuration error as the claim — and the
repository's own interval-arithmetic test — requires. -/
theorem C6_zero_duration_panics :
    rewardsEnvZeroDur.intervalDuration = 0 ∧
    rewardsRun rewardsEnvZeroDur = .panicked := by
  constructor <;> decide

end Watchtower

namespace SingleFlight

/-! ### C3 -/

/-- C3 counterexample: a schedule of two simultaneous calls in which both
lock-guarded checks run before either spawned goroutine sets the running
flag: both calls pass the check and both background executions proceed
(e1 = e2 = 1), so "exactly one background execution" fails — the check and
the flag set are separate critical sections in the code. -/
theorem C3_counterexample :
    run [false, true, false, false, false, true, true, true] =
      ⟨false, .finished, .finished, 1, 1⟩ := by
  decide

/-- The invariant holds initially. -/
theorem execInv_init : ExecInv init := ⟨rfl, rfl⟩

/-- One atomic action preserves the invariant. -/
theorem execInv_step (s : Sys) (tid : Bool) (h : ExecInv s) :
    ExecInv (step s tid) := by
  obtain ⟨h1, h2⟩ := h
  cases tid
  · cases hp : s.p1 <;>
      cases hf : s.flag <;>
        simp_all [step, stepThread, ExecInv, phaseExecs]
  · cases hp : s.p2 <;>
      cases hf : s.flag <;>
        simp_all [step, stepThread, ExecInv, phaseExecs]

/-- The invariant holds after any schedule. -/
theorem execInv_run (sched : List Bool) : ExecInv (run sched) := by
  have main : ∀ (l : List Bool) (s : Sys), ExecInv s → ExecInv (l.foldl step s) := by
    intro l
    induction l with
    | nil => intro s h; exact h
    | cons a l ih => intro s h; exact ih (step s a) (execInv_step s a h)
  exact main sched init execInv_init

/-- C3 (amended): under every interleaving of two simultaneous calls, a call
whose lock-guarded check observes the running flag as set returns immediately
having performed no background execution and mutating nothing, and each call
performs at most one background execution; but exactly-one is not guaranteed:
because the flag is set inside the spawned goroutine rather than under the
same lock acquisition as the check, two calls that both check before either
goroutine runs each proceed (see the counterexample schedule). -/
theorem C3_single_flight (sched : List Bool) :
    ((run sched).p1 = .noopDone → (run sched).e1 = 0) ∧
    ((run sched).p2 = .noopDone → (run sched).e2 = 0) ∧
    (run sched).e1 ≤ 1 ∧ (run sched).e2 ≤ 1 := by
  obtain ⟨h1, h2⟩ := execInv_run sched
  refine ⟨?_, ?_, ?_, ?_⟩
  · intro hp; rw [h1, hp]; rfl
  · intro hp; rw [h2, hp]; rfl
  · rw [h1]; cases (run sched).p1 <;> simp [phaseExecs]
  · rw [h2]; cases (run sched).p2 <;> simp [phaseExecs]

/-- C3 witness: in the schedule where call 1 spawns and its goroutine sets
the flag before call 2's check, call 2 observes the flag, returns, and
performs no background execution. -/
theorem C3_single_flight_witness :
    (run [false, false, true, false, false]).e2 = 0 :=
  (C3_single_flight [false, false, true, false, false]).2.1 (by decide)

end SingleFlight

namespace Watchtower

/-! ### C4 -/

/-- C4 counterexample: the remote ledger already records this node's
submission for the interval (treeSubmittedForNode = true) but the local
artifact is absent and must be regenerated; the task never consults the
probe on the regeneration path and makes one on-chain submission attempt
instead of the claimed zero. -/
theorem C4_counterexample :
    rewardsEnvRegen.treeSubmittedForNode = true ∧
    isExistingFileValid rewardsEnvRegen.fileState (goUInt64 (elapsedOf rewardsEnvRegen))
      = false ∧
    rewardsRun rewardsEnvRegen = .returned none 1 := by
  refine ⟨by decide, by decide, by decide⟩

/-- C4 (amended): when the duplicate-submission probe is consulted and
reports true the task makes zero additional submission attempts and returns
without error — for the rewards task the probe is consulted only when a valid
local artifact exists for the current elapsed count; the price task consults
its value-specific probe before every submission.  (On the rewards
regeneration path the probe is not consulted and a submission is attempted
regardless of the remote record.) -/
theorem C4_duplicate_probe :
    (∀ e : RewardsEnv, e.nodeTrusted = true → e.intervalDuration ≠ 0 → elapsedOf e ≠ 0 →
      (getSnapshotConsensusBlock e.beaconCfg e.finalizedEpoch e.blocks (endTimeOf e)).err
        = none →
      e.isRunning = false →
      isExistingFileValid e.fileState (goUInt64 (elapsedOf e)) = true →
      e.treeSubmittedForNode = true →
      rewardsRun e = .returned none 0) ∧
    (∀ p : PriceEnv, p.twapOk = true →
      p.specificSubmitted p.latestReportableBlock p.rplPrice = true →
      priceRun p = ⟨none, 0, false⟩) := by
  constructor
  · intro e htrust hdur helapsed hsnap hrun hvalid hsub
    simp [rewardsRun, htrust, hdur, helapsed, hrun, hvalid, hsub,
      Option.eq_none_iff_forall_not_mem.mp hsnap]
    cases hmatch : (getSnapshotConsensusBlock e.beaconCfg e.finalizedEpoch e.blocks
        (endTimeOf e)).err with
    | none => simp
    | some se => rw [hmatch] at hsnap; simp at hsnap
  · intro p htwap hspec
    simp only [priceRun, htwap, hspec]
    split_ifs <;> simp_all

/-- C4 witness: with a valid cached artifact for the elapsed count and the
remote record set, the rewards task returns nil with zero submission
attempts; the price task with the exact (block, price) pair recorded does the
same. -/
theorem C4_duplicate_probe_witness :
    rewardsRun rewardsEnvDup = .returned none 0 ∧
    priceRun priceEnvDup = ⟨none, 0, false⟩ :=
  ⟨C4_duplicate_probe.1 rewardsEnvDup rfl (by decide) (by decide) (by decide) rfl
      (by decide) rfl,
    C4_duplicate_probe.2 priceEnvDup rfl rfl⟩

end Watchtower


namespace Watchtower

/-! ### C8 and C9 -/

/-- The attempt sequence of the leader branch is the staleness filter over
the five targets in source order. -/
theorem relayAttempts_eq_filter (e : L2Env) :
    relayAttempts e = allL2Targets.filter (fun t => effectiveStale e t) := by
  simp only [relayAttempts, allL2Targets, List.filter_cons, List.filter_nil]
  split_ifs <;> rfl

/-- Membership in the attempt sequence is effective staleness. -/
theorem mem_relayAttempts (e : L2Env) (t : L2Target) :
    t ∈ relayAttempts e ↔ effectiveStale e t = true := by
  have ht : t ∈ allL2Targets := by cases t <;> simp [allL2Targets]
  rw [relayAttempts_eq_filter]
  simp [List.mem_filter, ht]

/-- Case analysis of `updateL2Prices`: a nil-error no-op happens when nothing
is effectively stale or when this node is not the selected leader; otherwise
the leader branch attempts the staleness filter and joins the failures. -/
theorem updateL2Prices_cases (e : L2Env) (r : L2Result)
    (h : updateL2Prices e = some r) :
    ((∀ t, effectiveStale e t = false) ∧ r = ⟨[], [], false⟩) ∨
    (findMemberIndex e.members e.myAddress ≠
        selectedIndex e.elBlockNumber BlocksPerTurn e.members.length ∧
      r = ⟨[], [], false⟩) ∨
    (findMemberIndex e.members e.myAddress =
        selectedIndex e.elBlockNumber BlocksPerTurn e.members.length ∧
      r = ⟨relayAttempts e, (relayAttempts e).filter (fun t => e.submitFails t),
        !((relayAttempts e).filter (fun t => e.submitFails t)).isEmpty⟩) := by
  simp only [updateL2Prices] at h
  by_cases h1 : (allL2Targets.all fun t => !e.configured t) = true
  · rw [if_pos h1] at h
    injection h with h'
    refine Or.inl ⟨?_, h'.symm⟩
    intro t
    have := List.all_eq_true.mp h1 t (by cases t <;> simp [allL2Targets])
    simp only [Bool.not_eq_true'] at this
    simp [effectiveStale, this]
  · rw [if_neg h1] at h
    by_cases h2 : (allL2Targets.all fun t => !effectiveStale e t) = true
    · rw [if_pos h2] at h
      injection h with h'
      refine Or.inl ⟨?_, h'.symm⟩
      intro t
      have := List.all_eq_true.mp h2 t (by cases t <;> simp [allL2Targets])
      simpa using this
    · rw [if_neg h2] at h
      by_cases h3 : e.members.length = 0
      · rw [if_pos h3] at h
        exact absurd h (by simp)
      · rw [if_neg h3] at h
        by_cases h4 : findMemberIndex e.members e.myAddress =
            selectedIndex e.elBlockNumber BlocksPerTurn e.members.length
        · rw [if_pos h4] at h
          injection h with h'
          exact Or.inr (Or.inr ⟨h4, h'.symm⟩)
        · rw [if_neg h4] at h
          injection h with h'
          exact Or.inr (Or.inl ⟨h4, h'.symm⟩)

/-- C8: the relay leader index is `(blockNumber / blocksPerTurn) mod
memberCount` with `blocksPerTurn = 75`: for four members, blocks 0..74 select
index 0, blocks 75..149 select index 1, and blocks 300..374 wrap back to
index 0; relay submissions happen only when this node's member index equals
the selected index, and a non-leader invocation is a no-op even when targets
are stale. -/
theorem C8_leader_rotation :
    (∀ b : Nat, b ≤ 74 → selectedIndex b 75 4 = 0) ∧
    (∀ b : Nat, 75 ≤ b → b ≤ 149 → selectedIndex b 75 4 = 1) ∧
    (∀ b : Nat, 300 ≤ b → b ≤ 374 → selectedIndex b 75 4 = 0) ∧
    (∀ (e : L2Env) (r : L2Result), updateL2Prices e = some r → r.attempted ≠ [] →
      findMemberIndex e.members e.myAddress =
        selectedIndex e.elBlockNumber BlocksPerTurn e.members.length) ∧
    (∀ e : L2Env, e.members.length ≠ 0 →
      findMemberIndex e.members e.myAddress ≠
        selectedIndex e.elBlockNumber BlocksPerTurn e.members.length →
      updateL2Prices e = some ⟨[], [], false⟩) := by
  refine ⟨?_, ?_, ?_, ?_, ?_⟩
  · intro b hb; simp only [selectedIndex]; omega
  · intro b h1 h2; simp only [selectedIndex]; omega
  · intro b h1 h2; simp only [selectedIndex]; omega
  · intro e r h hne
    rcases updateL2Prices_cases e r h with ⟨_, hr⟩ | ⟨_, hr⟩ | ⟨hl, _⟩
    · rw [hr] at hne; simp at hne
    · rw [hr] at hne; simp at hne
    · exact hl
  · intro e hm hne
    simp only [updateL2Prices]
    by_cases h1 : (allL2Targets.all fun t => !e.configured t) = true
    · rw [if_pos h1]
    · rw [if_neg h1]
      by_cases h2 : (allL2Targets.all fun t => !effectiveStale e t) = true
      · rw [if_pos h2]
      · rw [if_neg h2, if_neg hm, if_neg hne]

/-- C8 witness: selected indices at concrete blocks and a concrete
non-leader no-op with stale targets. -/
theorem C8_leader_rotation_witness :
    selectedIndex 0 75 4 = 0 ∧ selectedIndex 149 75 4 = 1 ∧
    selectedIndex 374 75 4 = 0 ∧
    updateL2Prices l2EnvNotLeader = some ⟨[], [], false⟩ :=
  ⟨C8_leader_rotation.1 0 (by decide),
    C8_leader_rotation.2.1 149 (by decide) (by decide),
    C8_leader_rotation.2.2.1 374 (by decide) (by decide),
    C8_leader_rotation.2.2.2.2 l2EnvNotLeader (by decide) (by decide)⟩

/-- C9: when this node is the rotation leader, every stale configured target
is attempted — the attempt sequence does not depend on the per-target
submission outcomes — the failing targets are exactly the attempted ones
whose submission fails, and the joined error is nil exactly when no attempt
failed. -/
theorem C9_relay_independence (e : L2Env) (r : L2Result)
    (h : updateL2Prices e = some r)
    (hlead : findMemberIndex e.members e.myAddress =
      selectedIndex e.elBlockNumber BlocksPerTurn e.members.length) :
    (∀ t, t ∈ r.attempted ↔ effectiveStale e t = true) ∧
    (∀ t, t ∈ r.failedTargets ↔ t ∈ r.attempted ∧ e.submitFails t = true) ∧
    (r.errJoined = false ↔ r.failedTargets = []) ∧
    (∀ f g : L2Target → Bool,
      relayAttempts { e with submitFails := f } =
        relayAttempts { e with submitFails := g }) := by
  rcases updateL2Prices_cases e r h with ⟨hst, hr⟩ | ⟨hnl, _⟩ | ⟨_, hr⟩
  · subst hr
    exact ⟨fun t => by simp [hst t], fun t => by simp, by simp, fun f g => rfl⟩
  · exact absurd hlead hnl
  · subst hr
    refine ⟨fun t => mem_relayAttempts e t, fun t => ?_, ?_, fun f g => rfl⟩
    · simp [List.mem_filter]
    · simp [List.isEmpty_iff]

/-- C9 witness: three stale configured targets with the second one's
submission failing — the first and third are still attempted, the failure
list is exactly the second target, and the joined error is non-nil. -/
theorem C9_relay_independence_witness :
    (∀ t, t ∈ ([L2Target.optimism, L2Target.polygon, L2Target.arbitrum] : List L2Target)
        ↔ effectiveStale l2EnvLeaderPartial t = true) ∧
    (∀ t, t ∈ ([L2Target.polygon] : List L2Target) ↔
      t ∈ ([L2Target.optimism, L2Target.polygon, L2Target.arbitrum] : List L2Target) ∧
        l2EnvLeaderPartial.submitFails t = true) ∧
    ((true : Bool) = false ↔ ([L2Target.polygon] : List L2Target) = []) ∧
    (∀ f g : L2Target → Bool,
      relayAttempts { l2EnvLeaderPartial with submitFails := f } =
        relayAttempts { l2EnvLeaderPartial with submitFails := g }) :=
  C9_relay_independence l2EnvLeaderPartial
    ⟨[L2Target.optimism, L2Target.polygon, L2Target.arbitrum], [L2Target.polygon], true⟩
    (by decide) (by decide)

/-! ### C10 -/

/-- C10: when the price task finds the block-generic record set but not the
exact (block, price) value it just computed, it proceeds to submit the new
value (one submission attempt, the retry message logged, no error when the
transaction succeeds); it skips submission only when the exact (block, price)
pair is already recorded. -/
theorem C10_price_resubmission (p : PriceEnv)
    (hen : p.submitPricesEnabled = true)
    (hblk : p.pricesBlock < p.latestReportableBlock)
    (hfin : priceTargetEpoch p ≤ p.finalizedEpoch)
    (hrun : p.isRunning = false)
    (htwap : p.twapOk = true) :
    (p.specificSubmitted p.latestReportableBlock p.rplPrice = false →
      (priceRun p).submissions = 1 ∧
      (priceRun p).loggedRetry = p.anySubmitted p.latestReportableBlock ∧
      (p.submitOk = true → (priceRun p).bgErr = none)) ∧
    (p.specificSubmitted p.latestReportableBlock p.rplPrice = true →
      priceRun p = ⟨none, 0, false⟩) := by
  have hblk' : ¬ p.latestReportableBlock ≤ p.pricesBlock := by omega
  have hfin' : ¬ p.finalizedEpoch < priceTargetEpoch p := by omega
  constructor
  · intro hspec
    simp only [priceRun, hen, hrun, htwap, hspec, if_neg hblk', if_neg hfin']
    cases hso : p.submitOk <;> simp
  · intro hspec
    simp only [priceRun, hen, hrun, htwap, hspec, if_neg hblk', if_neg hfin']
    simp

/-- C10 witness: in the concrete retry environment (generic flag true,
specific flag false, succeeding transaction) the task submits once, logs the
retry, and reports no error. -/
theorem C10_price_resubmission_witness :
    priceEnvRetry.anySubmitted priceEnvRetry.latestReportableBlock = true ∧
    (priceRun priceEnvRetry).submissions = 1 ∧
    (priceRun priceEnvRetry).loggedRetry = true ∧
    (priceRun priceEnvRetry).bgErr = none := by
  have h := (C10_price_resubmission priceEnvRetry rfl (by decide) (by decide) rfl rfl).1 rfl
  refine ⟨by decide, h.1, ?_, h.2.2 rfl⟩
  rw [h.2.1]
  decide

end Watchtower
